import Mathlib

/-!
Shallow embedding of the batch media pipelines `process_images.py` and
`process_signals.py`: file discovery, the per-file transforms, the worker
pool drain loop, and the command-line argument surface, together with
theorems settling the specification claims about them.

External library behaviour (OpenCV decode, scipy WAV reading, numpy FFT)
is supplied through explicit environment records whose fields stand for
those calls; everything the Python scripts themselves compute is
translated directly.
-/

/-- Job status tag: every transform returns a tuple tagged OK or ERROR. -/
inductive Status where
  | OK
  | ERROR
  deriving DecidableEq, Repr

/-- Result tuple `(source_path, status, detail)` returned by every transform. -/
structure JobResult where
  path : String
  status : Status
  detail : String
  deriving DecidableEq, Repr

/-- Contents of a derived artifact file written by a transform. -/
inductive Artifact where
  | grayPng (h w : Nat) (pixels : List Nat)
  | histCsv (header : String × String) (rows : List (Nat × Nat))
  | fftCsv (header : String × String) (rows : List (ℚ × ℚ))
  | waveCsv (header : String × String) (rows : List (Nat × ℚ))
  deriving DecidableEq

/-- One line of the processing log: projection of a `JobResult`. -/
structure LogEntry where
  path : String
  status : Status
  detail : String
  deriving DecidableEq, Repr

/-- Characters of the last path component (the part after the final slash),
as `PurePath.name`. -/
def lastComponentChars (cs : List Char) : List Char :=
  (cs.reverse.takeWhile (fun c => c != '/')).reverse

/-- Last path component as a string. -/
def lastComponent (s : String) : String :=
  String.mk (lastComponentChars s.toList)

/-- Index of the last dot of a character list, if any. -/
def lastDotIdx (cs : List Char) : Option Nat :=
  ((cs.enum.filter (fun p => p.2 == '.')).getLast?).map Prod.fst

/-- Python `Path.stem`: the final component with its suffix removed.  A dot at
position 0 or at the very end does not begin a suffix. -/
def pathStem (path : String) : String :=
  let cs := lastComponentChars path.toList
  match lastDotIdx cs with
  | some i => if 0 < i ∧ i < cs.length - 1 then String.mk (cs.take i) else String.mk cs
  | none => String.mk cs

/-- Python `Path.suffix`: the final extension including its dot, or `""`. -/
def pathSuffix (path : String) : String :=
  let cs := lastComponentChars path.toList
  match lastDotIdx cs with
  | some i => if 0 < i ∧ i < cs.length - 1 then String.mk (cs.drop i) else ""
  | none => ""

/-- ASCII lower-casing of one character, as `str.lower` acts on ASCII. -/
def lowerChar (c : Char) : Char :=
  if 65 ≤ c.toNat ∧ c.toNat ≤ 90 then Char.ofNat (c.toNat + 32) else c

/-- ASCII lower-casing of a string. -/
def lowerStr (s : String) : String :=
  String.mk (s.toList.map lowerChar)

/-- Whether `rglob` with pattern `*<pat>` matches a path: its final component
must literally end with `pat` (pathlib name matching is case sensitive). -/
def matchesExt (path pat : String) : Bool :=
  pat.toList.isSuffixOf (lastComponentChars path.toList)

/-- Extension patterns of the image pipeline, in the order `main` globs them. -/
def IMG_PATTERNS : List String :=
  [".png", ".jpg", ".jpeg", ".bmp", ".tif", ".tiff"]

/-- File discovery of the image pipeline: one `rglob` pass per pattern,
results concatenated. -/
def imgDiscover (files : List String) : List String :=
  IMG_PATTERNS.flatMap (fun e => files.filter (fun f => matchesExt f e))

/-- File discovery of the signal pipeline: `rglob('*.wav')` then
`rglob('*.csv')`, concatenated. -/
def sigDiscover (files : List String) : List String :=
  files.filter (fun f => matchesExt f ".wav") ++ files.filter (fun f => matchesExt f ".csv")

/-- Kind of an argparse argument (its `type=` converter). -/
inductive ArgKind where
  | str
  | int
  deriving DecidableEq, Repr

/-- One argparse `add_argument` call: flag name, required, kind, default. -/
structure ArgSpec where
  name : String
  required : Bool
  kind : ArgKind
  default : Option Nat
  deriving DecidableEq, Repr

/-- Argument surface of `process_images.py main`. -/
def imgArgSpecs : List ArgSpec :=
  [⟨"--input_dir", true, .str, none⟩,
   ⟨"--output_dir", true, .str, none⟩,
   ⟨"--workers", false, .int, some 4⟩,
   ⟨"--max_dim", false, .int, some 1024⟩]

/-- Argument surface of `process_signals.py main`. -/
def sigArgSpecs : List ArgSpec :=
  [⟨"--input_dir", true, .str, none⟩,
   ⟨"--output_dir", true, .str, none⟩,
   ⟨"--workers", false, .int, some 4⟩]

/-- Shape of a decoded colour image, as `img.shape[:2]` after `cv2.imdecode`. -/
structure Image where
  h : Nat
  w : Nat
  deriving DecidableEq, Repr

/-- Environment supplying the external library behaviour the image transform
calls: whether `out_dir.mkdir` succeeds, what `cv2.imdecode` yields per path
(`none` covers both an unreadable file and a decode returning `None`), and
the grayscale pixel grid delivered by `cv2.resize`/`cv2.cvtColor` for a given
path at given target height and width. -/
structure ImgEnv where
  mkdirOk : String → Bool
  decode : String → Option Image
  gray : String → Nat → Nat → List Nat

/-- Scale factor `min(1.0, float(max_dim) / max(h, w))`. -/
def imgScale (h w maxDim : Nat) : ℚ :=
  min 1 ((maxDim : ℚ) / ((max h w : Nat) : ℚ))

/-- Target `(width, height)` passed to `cv2.resize`: `(int(w*scale),
int(h*scale))` when `scale < 1.0`, otherwise the image is left unchanged. -/
def targetDims (h w maxDim : Nat) : Nat × Nat :=
  let scale := imgScale h w maxDim
  if scale < 1 then ((⌊(w : ℚ) * scale⌋).toNat, (⌊(h : ℚ) * scale⌋).toNat)
  else (w, h)

/-- 256-bin grayscale histogram, as `cv2.calcHist(..., [256], [0,256])`:
bin `b` holds the number of pixels with value `b`. -/
def calcHist (pixels : List Nat) : List Nat :=
  (List.range 256).map (fun b => pixels.count b)

/-- A transform call either returns a result tuple together with the artifact
files it wrote, or propagates an exception (`Except.error`). -/
abbrev TResult := Except String (JobResult × List (String × Artifact))

/-- The image transform `process_one`.  `out_dir.mkdir` runs before the `try`
block, so its failure propagates; every failure inside the `try` is caught and
returned as an ERROR tuple.  `cv2.resize` rejects a zero target dimension, so
that case surfaces as an ERROR tuple as well. -/
def process_one (env : ImgEnv) (path out : String) (maxDim : Nat) : TResult :=
  if env.mkdirOk out then
    match env.decode path with
    | none => .ok (⟨path, .ERROR, "Image read returned None"⟩, [])
    | some img =>
      let scale := imgScale img.h img.w maxDim
      let dims := targetDims img.h img.w maxDim
      if scale < 1 ∧ (dims.1 = 0 ∨ dims.2 = 0) then
        .ok (⟨path, .ERROR, "OpenCV resize assertion failed"⟩, [])
      else
        let pixels := env.gray path dims.2 dims.1
        let grayName := out ++ "/" ++ pathStem path ++ "_gray.png"
        let histName := out ++ "/" ++ pathStem path ++ "_hist.csv"
        .ok (⟨path, .OK, grayName⟩,
          [(grayName, .grayPng dims.2 dims.1 pixels),
           (histName, .histCsv ("bin", "count") (calcHist pixels).enum)])
  else .error "mkdir: FileExistsError"

/-- Shape-tagged numeric array, as numpy delivers it: a 0-d scalar, a 1-d
waveform, or a 2-d (samples × channels) matrix. -/
inductive NdArray where
  | zero (x : ℚ)
  | one (xs : List ℚ)
  | two (xss : List (List ℚ))
  deriving DecidableEq

/-- Row means, as `data.mean(axis=1)` on a 2-d array. -/
def rowMeans (xss : List (List ℚ)) : List ℚ :=
  xss.map (fun r => r.sum / (r.length : ℚ))

/-- First column, as `data[:,0]` on a 2-d array. -/
def firstCol (xss : List (List ℚ)) : List ℚ :=
  xss.map (fun r => r.getD 0 0)

/-- Channel reduction of `process_wav`: a 2-d array is averaged over axis 1;
a 0-d scalar later fails `len(data)` with a TypeError, caught in the `try`. -/
def wavMono? : NdArray → Option (List ℚ)
  | .zero _ => none
  | .one xs => some xs
  | .two xss => some (rowMeans xss)

/-- Column reduction of `process_csv`: a 2-d array keeps only column 0;
a 0-d scalar later fails `len(data)` with a TypeError, caught in the `try`. -/
def csvMono? : NdArray → Option (List ℚ)
  | .zero _ => none
  | .one xs => some xs
  | .two xss => some (firstCol xss)

/-- Environment supplying the external library behaviour of the signal
transforms: `out_dir.mkdir` success, `wavfile.read` (`none` covers a raised
read error), `np.loadtxt` (`none` covers malformed numeric data), and the
magnitude column `np.abs(np.fft.rfft(data))`. -/
structure SigEnv where
  mkdirOk : String → Bool
  readWav : String → Option (Nat × NdArray)
  loadCsv : String → Option NdArray
  fftMag : List ℚ → List ℚ

/-- Frequency axis `np.fft.rfftfreq(n, d=1.0/sr)`: the `n/2 + 1` values
`k * sr / n` for `k = 0, ..., n/2`. -/
def rfftfreq (n sr : Nat) : List ℚ :=
  (List.range (n / 2 + 1)).map (fun (k : Nat) => (k : ℚ) * sr / n)

/-- Rows of the `<stem>_fft.csv` artifact: `zip(freqs, mag)`. -/
def fftRows (env : SigEnv) (sr : Nat) (mono : List ℚ) : List (ℚ × ℚ) :=
  (rfftfreq mono.length sr).zip (env.fftMag mono)

/-- Python slice `data[::step]`: every `step`-th element, starting at 0. -/
def everyNth (xs : List ℚ) (step : Nat) : List ℚ :=
  (List.range ((xs.length + step - 1) / step)).map (fun i => xs.getD (i * step) 0)

/-- Shared tail of both signal transforms, after channel/column reduction:
`rfft` rejects an empty input (ValueError) and `1.0/sr` raises
ZeroDivisionError for `sr = 0`; both are caught by the `try`.  Otherwise the
FFT CSV and the downsampled waveform CSV are written. -/
def sigCore (env : SigEnv) (path out : String) (dsRate sr : Nat) (mono : List ℚ) : TResult :=
  if mono.length = 0 then .ok (⟨path, .ERROR, "Invalid number of FFT data points"⟩, [])
  else if sr = 0 then .ok (⟨path, .ERROR, "float division by zero"⟩, [])
  else
    let fftName := out ++ "/" ++ pathStem path ++ "_fft.csv"
    let step := max 1 (sr / dsRate)
    let dsName := out ++ "/" ++ pathStem path ++ "_waveform.csv"
    .ok (⟨path, .OK, fftName ++ ", " ++ dsName⟩,
      [(fftName, .fftCsv ("frequency", "magnitude") (fftRows env sr mono)),
       (dsName, .waveCsv ("sample_index", "value") (everyNth mono step).enum)])

/-- The WAV transform `process_wav`.  `out_dir.mkdir` runs before the `try`
block, so its failure propagates; everything else is caught. -/
def process_wav (env : SigEnv) (path out : String) (dsRate : Nat) : TResult :=
  if env.mkdirOk out then
    match env.readWav path with
    | none => .ok (⟨path, .ERROR, "wavfile read raised"⟩, [])
    | some (sr, data) =>
      match wavMono? data with
      | none => .ok (⟨path, .ERROR, "len of unsized object"⟩, [])
      | some mono => sigCore env path out dsRate sr mono
  else .error "mkdir: FileExistsError"

/-- The CSV transform `process_csv`.  The sample rate is unknown, so the fixed
constant 44100 scales the frequency axis.  `out_dir.mkdir` runs before the
`try` block, so its failure propagates; everything else is caught. -/
def process_csv (env : SigEnv) (path out : String) (dsRate : Nat) : TResult :=
  if env.mkdirOk out then
    match env.loadCsv path with
    | none => .ok (⟨path, .ERROR, "could not convert string to float"⟩, [])
    | some data =>
      match csvMono? data with
      | none => .ok (⟨path, .ERROR, "len of unsized object"⟩, [])
      | some mono => sigCore env path out dsRate 44100 mono
  else .error "mkdir: FileExistsError"

/-- Per-file dispatch of the signal pipeline `main`: WAV files (suffix
lower-cased) go to `process_wav`, everything else to `process_csv`, both with
the function-default downsample rate 1000 since `main` passes none. -/
def sigDispatch (env : SigEnv) (out p : String) : TResult :=
  if lowerStr (pathSuffix p) = ".wav" then process_wav env p out 1000
  else process_csv env p out 1000

/-- The drain loop of either `main`: one completed future at a time, each
`.ok` result tuple appended to the log file as one line; a raised exception
from `fut.result()` is only logged to the console, producing no line. -/
def drainLog (results : List TResult) : List LogEntry :=
  results.filterMap (fun r => match r with
    | .ok (jr, _) => some ⟨jr.path, jr.status, jr.detail⟩
    | .error _ => none)

/-- Log lines of one image-pipeline run whose completion order is `order`. -/
def imgRunLog (env : ImgEnv) (order : List String) (out : String) (maxDim : Nat) : List LogEntry :=
  drainLog (order.map (fun p => process_one env p out maxDim))

/-- Log lines of one signal-pipeline run whose completion order is `order`. -/
def sigRunLog (env : SigEnv) (order : List String) (out : String) : List LogEntry :=
  drainLog (order.map (fun p => sigDispatch env out p))

/-- The artifact file system: contents of derived files by path. -/
def Store := String → Option Artifact

/-- Writing one artifact file: `open(..., 'w')` truncates, so the new content
replaces any previous content at that path. -/
def setArt (s : Store) (k : String) (a : Artifact) : Store :=
  fun q => if q = k then some a else s q

/-- Writing a transform's artifact files in order. -/
def writeArts (s : Store) (l : List (String × Artifact)) : Store :=
  l.foldl (fun st pa => setArt st pa.1 pa.2) s

/-- Effect of one image job on the artifact file system. -/
def runImgJob (env : ImgEnv) (p out : String) (maxDim : Nat) (s : Store) : Store :=
  match process_one env p out maxDim with
  | .ok (_, arts) => writeArts s arts
  | .error _ => s

/-- Effect of one signal job on the artifact file system. -/
def runSigJob (env : SigEnv) (out p : String) (s : Store) : Store :=
  match sigDispatch env out p with
  | .ok (_, arts) => writeArts s arts
  | .error _ => s

/-- Concrete environments for witnesses: everything succeeds. -/
def okImgEnv : ImgEnv :=
  ⟨fun _ => true, fun _ => some ⟨2, 2⟩, fun _ a b => List.replicate (a * b) 7⟩

/-- Concrete signal environment for witnesses: everything succeeds. -/
def okSigEnv : SigEnv :=
  ⟨fun _ => true, fun _ => some (8, .one [1, 2, 3]), fun _ => some (.one [4, 5]),
   fun xs => List.replicate (xs.length / 2 + 1) 0⟩

/-- Environment in which creating the output directory fails, as when the
output path is occupied by an existing regular file: `Path.mkdir(parents=True,
exist_ok=True)` then raises FileExistsError. -/
def badDirImgEnv : ImgEnv :=
  ⟨fun _ => false, fun _ => none, fun _ _ _ => []⟩

/-- Signal environment whose WAV is stereo and whose CSV is two-column. -/
def stereoSigEnv : SigEnv :=
  ⟨fun _ => true, fun _ => some (4, .two [[1, 3], [5, 7]]),
   fun _ => some (.two [[2, 4], [6, 8]]),
   fun xs => List.replicate (xs.length / 2 + 1) 0⟩

lemma imgScale_lt_one_iff (h w maxDim : Nat) (hM : 0 < max h w) :
    imgScale h w maxDim < 1 ↔ maxDim < max h w := by
  have hM' : (0 : ℚ) < ((max h w : Nat) : ℚ) := by exact_mod_cast hM
  unfold imgScale
  rw [min_lt_iff]
  constructor
  · rintro (h1 | h2)
    · exact absurd h1 (lt_irrefl 1)
    · rw [div_lt_one hM'] at h2
      exact_mod_cast h2
  · intro hgt
    right
    rw [div_lt_one hM']
    exact_mod_cast hgt

lemma imgScale_eq_one (h w maxDim : Nat) (hpos : 0 < max h w) (hle : max h w ≤ maxDim) :
    imgScale h w maxDim = 1 := by
  have hM' : (0 : ℚ) < ((max h w : Nat) : ℚ) := by exact_mod_cast hpos
  have h1 : (1 : ℚ) ≤ (maxDim : ℚ) / ((max h w : Nat) : ℚ) := by
    rw [one_le_div hM']
    exact_mod_cast hle
  unfold imgScale
  exact min_eq_left h1

lemma targetDims_id (h w maxDim : Nat) (hpos : 0 < max h w) (hle : max h w ≤ maxDim) :
    targetDims h w maxDim = (w, h) := by
  have hs := imgScale_eq_one h w maxDim hpos hle
  unfold targetDims
  rw [hs, if_neg (lt_irrefl 1)]

lemma floor_dim_le (d maxDim M : Nat) (hM : 0 < M) (hd : d ≤ M) :
    (⌊(d : ℚ) * ((maxDim : ℚ) / (M : ℚ))⌋).toNat ≤ maxDim := by
  rw [Int.toNat_le]
  have hM' : (0 : ℚ) < (M : ℚ) := by exact_mod_cast hM
  have hd' : (d : ℚ) ≤ (M : ℚ) := by exact_mod_cast hd
  have h1 : (d : ℚ) * ((maxDim : ℚ) / (M : ℚ)) ≤ (maxDim : ℚ) := by
    rw [mul_div_assoc', div_le_iff₀ hM']
    have hmd : (0 : ℚ) ≤ (maxDim : ℚ) := by positivity
    nlinarith
  calc ⌊(d : ℚ) * ((maxDim : ℚ) / (M : ℚ))⌋ ≤ ⌊(maxDim : ℚ)⌋ := Int.floor_le_floor h1
    _ = (maxDim : ℤ) := Int.floor_natCast maxDim
    _ ≤ (maxDim : ℤ) := le_refl _

/-- C6: whenever the larger input dimension exceeds `max_dim`, the target
size computed from the truncated scale factor keeps both the new width and
the new height at most `max_dim`. -/
theorem resize_bounds_dims (h w maxDim : Nat) (hgt : maxDim < max h w) :
    (targetDims h w maxDim).1 ≤ maxDim ∧ (targetDims h w maxDim).2 ≤ maxDim := by
  have hM : 0 < max h w := Nat.lt_of_le_of_lt (Nat.zero_le _) hgt
  have hM' : (0 : ℚ) < ((max h w : Nat) : ℚ) := by exact_mod_cast hM
  have hlt : imgScale h w maxDim < 1 := (imgScale_lt_one_iff h w maxDim hM).mpr hgt
  have hdiv : (maxDim : ℚ) / ((max h w : Nat) : ℚ) < 1 := by
    rw [div_lt_one hM']
    exact_mod_cast hgt
  have hsc : imgScale h w maxDim = (maxDim : ℚ) / ((max h w : Nat) : ℚ) :=
    min_eq_right hdiv.le
  unfold targetDims
  rw [if_pos hlt, hsc]
  exact ⟨floor_dim_le w maxDim (max h w) hM (le_max_right h w),
         floor_dim_le h maxDim (max h w) hM (le_max_left h w)⟩

/-- C6 witness at a concrete oversized image. -/
theorem resize_bounds_dims_witness :
    1024 < max 1000 2000 ∧
      (targetDims 1000 2000 1024).1 ≤ 1024 ∧ (targetDims 1000 2000 1024).2 ≤ 1024 :=
  ⟨by decide, resize_bounds_dims 1000 2000 1024 (by decide)⟩

/-- C10: when the larger input dimension is already at most `max_dim`, the
scale factor clamps to 1 and the image keeps its exact size. -/
theorem no_resize_when_small (h w maxDim : Nat) (hpos : 0 < max h w)
    (hle : max h w ≤ maxDim) :
    imgScale h w maxDim = 1 ∧ targetDims h w maxDim = (w, h) := by
  exact ⟨imgScale_eq_one h w maxDim hpos hle, targetDims_id h w maxDim hpos hle⟩

/-- C10 witness at a concrete small image. -/
theorem no_resize_when_small_witness :
    0 < max 2 3 ∧ max 2 3 ≤ 1024 ∧
      (imgScale 2 3 1024 = 1 ∧ targetDims 2 3 1024 = (3, 2)) :=
  ⟨by decide, by decide, no_resize_when_small 2 3 1024 (by decide) (by decide)⟩

lemma sum_map_add_nat {α : Type} (l : List α) (f g : α → Nat) :
    (l.map (fun x => f x + g x)).sum = (l.map f).sum + (l.map g).sum := by
  induction l with
  | nil => rfl
  | cons a t ih => simp only [List.map_cons, List.sum_cons, ih]; omega

lemma sum_indicator_range (p : Nat) : ∀ n, p < n →
    ((List.range n).map (fun b => if (p == b) = true then 1 else 0)).sum = 1 := by
  intro n
  induction n with
  | zero => omega
  | succ m ih =>
    intro hlt
    rw [List.range_succ, List.map_append, List.sum_append]
    by_cases hp : p = m
    · subst hp
      have hz : ((List.range p).map (fun b => if (p == b) = true then 1 else 0)).sum = 0 := by
        apply List.sum_eq_zero
        intro x hx
        simp only [List.mem_map, List.mem_range] at hx
        obtain ⟨b, hb, rfl⟩ := hx
        have : p ≠ b := Nat.ne_of_gt hb
        simp [this]
      rw [hz]
      simp
    · have hlt' : p < m := by omega
      rw [ih hlt']
      simp [hp]

lemma calcHist_length (pixels : List Nat) : (calcHist pixels).length = 256 := by
  simp [calcHist]

lemma calcHist_sum (pixels : List Nat) (hr : ∀ x ∈ pixels, x < 256) :
    (calcHist pixels).sum = pixels.length := by
  unfold calcHist
  induction pixels with
  | nil =>
    rw [List.length_nil]
    apply List.sum_eq_zero
    intro x hx
    simp only [List.mem_map] at hx
    obtain ⟨b, _, rfl⟩ := hx
    exact List.count_nil b
  | cons a t ih =>
    have ha : a < 256 := hr a (by simp)
    have ht := ih (fun x hx => hr x (by simp [hx]))
    simp only [List.count_cons]
    rw [sum_map_add_nat (List.range 256) (fun b => t.count b)
          (fun b => if (a == b) = true then 1 else 0),
        ht, sum_indicator_range a 256 ha, List.length_cons]

lemma setArt_setArt_self (s : Store) (k : String) (a : Artifact) :
    setArt (setArt s k a) k a = setArt s k a := by
  funext q
  unfold setArt
  by_cases hq : q = k <;> simp [hq]

lemma writeArts_notMem (l : List (String × Artifact)) :
    ∀ (s : Store) (k : String), k ∉ l.map Prod.fst → writeArts s l k = s k := by
  induction l with
  | nil => intro s k _; rfl
  | cons x t ih =>
    intro s k hk
    simp only [List.map_cons, List.mem_cons, not_or] at hk
    have step : writeArts s (x :: t) = writeArts (setArt s x.1 x.2) t := rfl
    rw [step, ih _ _ hk.2]
    simp [setArt, hk.1]

lemma writeArts_congr (l : List (String × Artifact)) :
    ∀ (s t : Store), (∀ k, k ∉ l.map Prod.fst → s k = t k) →
      writeArts s l = writeArts t l := by
  induction l with
  | nil =>
    intro s t hst
    funext k
    exact hst k (by simp)
  | cons x r ih =>
    intro s t hst
    have step1 : writeArts s (x :: r) = writeArts (setArt s x.1 x.2) r := rfl
    have step2 : writeArts t (x :: r) = writeArts (setArt t x.1 x.2) r := rfl
    rw [step1, step2]
    apply ih
    intro k hk
    by_cases hx : k = x.1
    · simp [setArt, hx]
    · simp only [setArt, if_neg hx]
      apply hst
      simp only [List.map_cons, List.mem_cons, not_or]
      exact ⟨hx, hk⟩

lemma writeArts_idem (s : Store) (l : List (String × Artifact)) :
    writeArts (writeArts s l) l = writeArts s l :=
  writeArts_congr l _ _ (fun k hk => writeArts_notMem l s k hk)

lemma process_one_ok (env : ImgEnv) (p out : String) (d : Nat)
    (hmk : env.mkdirOk out = true) :
    ∃ jr arts, process_one env p out d = .ok (jr, arts) ∧ jr.path = p := by
  unfold process_one
  rw [hmk]
  simp only [if_true]
  cases env.decode p with
  | none => exact ⟨_, _, rfl, rfl⟩
  | some img =>
    dsimp only
    split
    · exact ⟨_, _, rfl, rfl⟩
    · exact ⟨_, _, rfl, rfl⟩

lemma sigCore_ok (env : SigEnv) (p out : String) (dsR sr : Nat) (mono : List ℚ) :
    ∃ jr arts, sigCore env p out dsR sr mono = .ok (jr, arts) ∧ jr.path = p := by
  unfold sigCore
  split
  · exact ⟨_, _, rfl, rfl⟩
  · split
    · exact ⟨_, _, rfl, rfl⟩
    · exact ⟨_, _, rfl, rfl⟩

lemma process_wav_ok (env : SigEnv) (p out : String) (d : Nat)
    (hmk : env.mkdirOk out = true) :
    ∃ jr arts, process_wav env p out d = .ok (jr, arts) ∧ jr.path = p := by
  unfold process_wav
  rw [hmk]
  simp only [if_true]
  cases env.readWav p with
  | none => exact ⟨_, _, rfl, rfl⟩
  | some v =>
    obtain ⟨sr, data⟩ := v
    dsimp only
    cases wavMono? data with
    | none => exact ⟨_, _, rfl, rfl⟩
    | some mono => exact sigCore_ok env p out d sr mono

lemma process_csv_ok (env : SigEnv) (p out : String) (d : Nat)
    (hmk : env.mkdirOk out = true) :
    ∃ jr arts, process_csv env p out d = .ok (jr, arts) ∧ jr.path = p := by
  unfold process_csv
  rw [hmk]
  simp only [if_true]
  cases env.loadCsv p with
  | none => exact ⟨_, _, rfl, rfl⟩
  | some data =>
    dsimp only
    cases csvMono? data with
    | none => exact ⟨_, _, rfl, rfl⟩
    | some mono => exact sigCore_ok env p out d 44100 mono

lemma sigDispatch_ok (env : SigEnv) (out p : String)
    (hmk : env.mkdirOk out = true) :
    ∃ jr arts, sigDispatch env out p = .ok (jr, arts) ∧ jr.path = p := by
  unfold sigDispatch
  split
  · exact process_wav_ok env p out 1000 hmk
  · exact process_csv_ok env p out 1000 hmk

lemma drainLog_ok (T : String → TResult) (order : List String)
    (hT : ∀ p, ∃ jr arts, T p = .ok (jr, arts) ∧ jr.path = p) :
    (drainLog (order.map T)).length = order.length ∧
      ∀ q, (drainLog (order.map T)).countP (fun e => e.path == q) = order.count q := by
  induction order with
  | nil => exact ⟨rfl, fun q => by simp [drainLog]⟩
  | cons p t ih =>
    obtain ⟨jr, arts, hok, hpath⟩ := hT p
    obtain ⟨ihl, ihc⟩ := ih
    have hcons : drainLog ((p :: t).map T) =
        ⟨p, jr.status, jr.detail⟩ :: drainLog (t.map T) := by
      simp [drainLog, hok, hpath]
    constructor
    · rw [hcons, List.length_cons, ihl, List.length_cons]
    · intro q
      rw [hcons, List.countP_cons, ihc q, List.count_cons]

/-- C1: in a run of either pipeline (the output directory having been created
by `main` before submission, and completion order being any permutation of
the submitted jobs), every job yields a result tuple, the log holds exactly
one line per discovered file, and each file is logged exactly once. -/
theorem delivery_exactly_once (envI : ImgEnv) (envS : SigEnv)
    (outI outS : String) (maxDim : Nat)
    (filesI orderI filesS orderS : List String)
    (hmkI : envI.mkdirOk outI = true) (hmkS : envS.mkdirOk outS = true)
    (hpI : orderI.Perm filesI) (hpS : orderS.Perm filesS)
    (hndI : filesI.Nodup) (hndS : filesS.Nodup) :
    ((∀ r ∈ orderI.map (fun p => process_one envI p outI maxDim),
        ∃ jr arts, r = .ok (jr, arts)) ∧
      (imgRunLog envI orderI outI maxDim).length = filesI.length ∧
      ∀ p ∈ filesI,
        (imgRunLog envI orderI outI maxDim).countP (fun e => e.path == p) = 1) ∧
    ((∀ r ∈ orderS.map (fun p => sigDispatch envS outS p),
        ∃ jr arts, r = .ok (jr, arts)) ∧
      (sigRunLog envS orderS outS).length = filesS.length ∧
      ∀ p ∈ filesS,
        (sigRunLog envS orderS outS).countP (fun e => e.path == p) = 1) := by
  have hTI : ∀ p, ∃ jr arts, process_one envI p outI maxDim = .ok (jr, arts) ∧ jr.path = p :=
    fun p => process_one_ok envI p outI maxDim hmkI
  have hTS : ∀ p, ∃ jr arts, sigDispatch envS outS p = .ok (jr, arts) ∧ jr.path = p :=
    fun p => sigDispatch_ok envS outS p hmkS
  obtain ⟨hlI, hcI⟩ := drainLog_ok _ orderI hTI
  obtain ⟨hlS, hcS⟩ := drainLog_ok _ orderS hTS
  refine ⟨⟨?_, ?_, ?_⟩, ?_, ?_, ?_⟩
  · intro r hr
    obtain ⟨p, _, rfl⟩ := List.mem_map.mp hr
    obtain ⟨jr, arts, hok, _⟩ := hTI p
    exact ⟨jr, arts, hok⟩
  · rw [imgRunLog, hlI, hpI.length_eq]
  · intro p hp
    rw [imgRunLog, hcI p, hpI.count_eq p, List.count_eq_one_of_mem hndI hp]
  · intro r hr
    obtain ⟨p, _, rfl⟩ := List.mem_map.mp hr
    obtain ⟨jr, arts, hok, _⟩ := hTS p
    exact ⟨jr, arts, hok⟩
  · rw [sigRunLog, hlS, hpS.length_eq]
  · intro p hp
    rw [sigRunLog, hcS p, hpS.count_eq p, List.count_eq_one_of_mem hndS hp]

/-- C1 witness: a two-file image run and a two-file signal run, completion
order reversed from submission order. -/
theorem delivery_exactly_once_witness :
    (okImgEnv.mkdirOk "o" = true ∧ okSigEnv.mkdirOk "o" = true ∧
      List.Perm ["b.png", "a.png"] ["a.png", "b.png"] ∧
      List.Perm ["b.wav", "a.csv"] ["a.csv", "b.wav"] ∧
      List.Nodup ["a.png", "b.png"] ∧ List.Nodup ["a.csv", "b.wav"]) ∧
    (((∀ r ∈ List.map (fun p => process_one okImgEnv p "o" 1024) ["b.png", "a.png"],
        ∃ jr arts, r = .ok (jr, arts)) ∧
      (imgRunLog okImgEnv ["b.png", "a.png"] "o" 1024).length =
        (["a.png", "b.png"] : List String).length ∧
      ∀ p ∈ (["a.png", "b.png"] : List String),
        (imgRunLog okImgEnv ["b.png", "a.png"] "o" 1024).countP (fun e => e.path == p) = 1) ∧
    ((∀ r ∈ List.map (fun p => sigDispatch okSigEnv "o" p) ["b.wav", "a.csv"],
        ∃ jr arts, r = .ok (jr, arts)) ∧
      (sigRunLog okSigEnv ["b.wav", "a.csv"] "o").length =
        (["a.csv", "b.wav"] : List String).length ∧
      ∀ p ∈ (["a.csv", "b.wav"] : List String),
        (sigRunLog okSigEnv ["b.wav", "a.csv"] "o").countP (fun e => e.path == p) = 1)) :=
  ⟨⟨rfl, rfl, by decide, by decide, by decide, by decide⟩,
    delivery_exactly_once okImgEnv okSigEnv "o" "o" 1024
      ["a.png", "b.png"] ["b.png", "a.png"] ["a.csv", "b.wav"] ["b.wav", "a.csv"]
      rfl rfl (by decide) (by decide) (by decide) (by decide)⟩

/-- C2 counterexample: `out_dir.mkdir` runs before the `try` block of
`process_one`, so its failure escapes to the caller instead of being returned
as an ERROR tuple — the transform is not exception-free for every output
directory. -/
theorem transform_can_raise_cex :
    process_one badDirImgEnv "img.png" "out" 1024 = .error "mkdir: FileExistsError" := rfl

/-- C2 amended: provided the output-directory creation performed before the
`try` block succeeds, none of the three transforms lets an exception escape:
each returns a result tuple, with status ERROR carrying the message of any
error recovered inside the `try`. -/
theorem transform_no_raise_inside_try (envI : ImgEnv) (envS : SigEnv)
    (pI pW pC out : String) (maxDim dsRate : Nat)
    (hmkI : envI.mkdirOk out = true) (hmkS : envS.mkdirOk out = true) :
    (∃ jr arts, process_one envI pI out maxDim = .ok (jr, arts)) ∧
    (∃ jr arts, process_wav envS pW out dsRate = .ok (jr, arts)) ∧
    (∃ jr arts, process_csv envS pC out dsRate = .ok (jr, arts)) := by
  obtain ⟨jr1, a1, h1, _⟩ := process_one_ok envI pI out maxDim hmkI
  obtain ⟨jr2, a2, h2, _⟩ := process_wav_ok envS pW out dsRate hmkS
  obtain ⟨jr3, a3, h3, _⟩ := process_csv_ok envS pC out dsRate hmkS
  exact ⟨⟨jr1, a1, h1⟩, ⟨jr2, a2, h2⟩, ⟨jr3, a3, h3⟩⟩

/-- C2 amended witness at concrete inputs with a working output directory. -/
theorem transform_no_raise_inside_try_witness :
    (okImgEnv.mkdirOk "o" = true ∧ okSigEnv.mkdirOk "o" = true) ∧
    ((∃ jr arts, process_one okImgEnv "a.png" "o" 1024 = .ok (jr, arts)) ∧
      (∃ jr arts, process_wav okSigEnv "b.wav" "o" 1000 = .ok (jr, arts)) ∧
      (∃ jr arts, process_csv okSigEnv "c.csv" "o" 1000 = .ok (jr, arts))) :=
  ⟨⟨rfl, rfl⟩,
    transform_no_raise_inside_try okImgEnv okSigEnv "a.png" "b.wav" "c.csv" "o" 1024 1000 rfl rfl⟩

/-- C7: re-running the same job against the same output directory rewrites
each artifact file with the same content: the artifact file system after two
runs equals the file system after one. -/
theorem rerun_idempotent (envI : ImgEnv) (envS : SigEnv) (pI pS out : String)
    (maxDim : Nat) (s t : Store) :
    runImgJob envI pI out maxDim (runImgJob envI pI out maxDim s) =
      runImgJob envI pI out maxDim s ∧
    runSigJob envS out pS (runSigJob envS out pS t) = runSigJob envS out pS t := by
  constructor
  · unfold runImgJob
    cases h : process_one envI pI out maxDim with
    | ok v => exact writeArts_idem s v.2
    | error e => rfl
  · unfold runSigJob
    cases h : sigDispatch envS out pS with
    | ok v => exact writeArts_idem t v.2
    | error e => rfl

/-- C3 counterexample: files whose extensions differ from the recognized ones
only by letter case are not discovered, although their lower-cased suffix is
a recognized extension. -/
theorem discovery_misses_uppercase_cex :
    imgDiscover ["photos/a.PNG"] = [] ∧ sigDiscover ["s/t.WAV"] = [] ∧
      lowerStr (pathSuffix "photos/a.PNG") = ".png" ∧
      lowerStr (pathSuffix "s/t.WAV") = ".wav" := by decide

/-- C3 amended: discovery is case sensitive — a file is discovered exactly
when its final path component literally ends in one of the lower-case
extension patterns the globs use. -/
theorem discovery_case_sensitive (files : List String) (f : String) :
    (f ∈ imgDiscover files ↔ f ∈ files ∧ ∃ e ∈ IMG_PATTERNS, matchesExt f e = true) ∧
    (f ∈ sigDiscover files ↔
      f ∈ files ∧ (matchesExt f ".wav" = true ∨ matchesExt f ".csv" = true)) := by
  constructor
  · rw [imgDiscover, List.mem_flatMap]
    constructor
    · rintro ⟨e, he, hf⟩
      rw [List.mem_filter] at hf
      exact ⟨hf.1, e, he, hf.2⟩
    · rintro ⟨hfl, e, he, hm⟩
      exact ⟨e, he, List.mem_filter.mpr ⟨hfl, hm⟩⟩
  · rw [sigDiscover, List.mem_append, List.mem_filter, List.mem_filter]
    tauto

/-- C8 counterexample: the signal pipeline's argparse surface consists of the
three shared flags only — no downsample-rate parameter is exposed. -/
theorem cli_no_downsample_flag_cex :
    sigArgSpecs.map ArgSpec.name = ["--input_dir", "--output_dir", "--workers"] := by decide

/-- C8 amended: both CLIs take required `--input_dir` and `--output_dir` and
`--workers` defaulting to 4; only the image CLI adds a numeric parameter,
`--max_dim` defaulting to 1024; the signal CLI is exactly the shared three
flags, its downsample rate staying a function default. -/
theorem cli_surface_args :
    imgArgSpecs.map ArgSpec.name = ["--input_dir", "--output_dir", "--workers", "--max_dim"] ∧
    sigArgSpecs = imgArgSpecs.take 3 ∧
    (imgArgSpecs.filter ArgSpec.required).map ArgSpec.name = ["--input_dir", "--output_dir"] ∧
    (imgArgSpecs.filter (fun a => a.default == some 4)).map ArgSpec.name = ["--workers"] ∧
    (imgArgSpecs.filter (fun a => a.default == some 1024)).map ArgSpec.name = ["--max_dim"] := by
  decide

/-- C4: whenever `process_one` succeeds, the histogram artifact carries the
`bin,count` header and exactly 256 rows, bins 0..255 in order, counts summing
to the pixel count (height times width) of the resized grayscale image. -/
theorem hist_csv_shape (env : ImgEnv) (path out : String) (maxDim : Nat) (img : Image)
    (hmk : env.mkdirOk out = true) (hdec : env.decode path = some img)
    (hnz : imgScale img.h img.w maxDim < 1 →
      (targetDims img.h img.w maxDim).1 ≠ 0 ∧ (targetDims img.h img.w maxDim).2 ≠ 0)
    (hlen : (env.gray path (targetDims img.h img.w maxDim).2
        (targetDims img.h img.w maxDim).1).length =
      (targetDims img.h img.w maxDim).2 * (targetDims img.h img.w maxDim).1)
    (hrange : ∀ x ∈ env.gray path (targetDims img.h img.w maxDim).2
        (targetDims img.h img.w maxDim).1, x < 256) :
    ∃ arts rows,
      process_one env path out maxDim =
        .ok (⟨path, .OK, out ++ "/" ++ pathStem path ++ "_gray.png"⟩, arts) ∧
      (out ++ "/" ++ pathStem path ++ "_hist.csv",
        Artifact.histCsv ("bin", "count") rows) ∈ arts ∧
      rows.length = 256 ∧
      rows.map Prod.fst = List.range 256 ∧
      (rows.map Prod.snd).sum =
        (targetDims img.h img.w maxDim).2 * (targetDims img.h img.w maxDim).1 := by
  have hng : ¬(imgScale img.h img.w maxDim < 1 ∧
      ((targetDims img.h img.w maxDim).1 = 0 ∨ (targetDims img.h img.w maxDim).2 = 0)) := by
    rintro ⟨hs, hz⟩
    obtain ⟨h1, h2⟩ := hnz hs
    rcases hz with hz | hz
    · exact h1 hz
    · exact h2 hz
  refine ⟨[(out ++ "/" ++ pathStem path ++ "_gray.png",
      .grayPng (targetDims img.h img.w maxDim).2 (targetDims img.h img.w maxDim).1
        (env.gray path (targetDims img.h img.w maxDim).2 (targetDims img.h img.w maxDim).1)),
     (out ++ "/" ++ pathStem path ++ "_hist.csv",
      .histCsv ("bin", "count") (calcHist (env.gray path (targetDims img.h img.w maxDim).2
        (targetDims img.h img.w maxDim).1)).enum)],
    (calcHist (env.gray path (targetDims img.h img.w maxDim).2
      (targetDims img.h img.w maxDim).1)).enum, ?_, ?_, ?_, ?_, ?_⟩
  · unfold process_one
    rw [hmk]
    simp only [if_true]
    rw [hdec]
    dsimp only
    rw [if_neg hng]
  · exact List.mem_cons_of_mem _ (List.mem_cons_self _ _)
  · rw [List.enum_length, calcHist_length]
  · rw [List.enum_map_fst, calcHist_length]
  · rw [List.enum_map_snd, calcHist_sum _ hrange, hlen]

/-- C4 witness: a 2×2 image left unresized under `max_dim = 1024`, with a
concrete 4-pixel grayscale grid. -/
theorem hist_csv_shape_witness :
    (okImgEnv.mkdirOk "o" = true ∧ okImgEnv.decode "a.png" = some ⟨2, 2⟩ ∧
      (okImgEnv.gray "a.png" (targetDims 2 2 1024).2 (targetDims 2 2 1024).1).length =
        (targetDims 2 2 1024).2 * (targetDims 2 2 1024).1 ∧
      ∀ x ∈ okImgEnv.gray "a.png" (targetDims 2 2 1024).2 (targetDims 2 2 1024).1, x < 256) ∧
    (∃ arts rows,
      process_one okImgEnv "a.png" "o" 1024 =
        .ok (⟨"a.png", .OK, "o" ++ "/" ++ pathStem "a.png" ++ "_gray.png"⟩, arts) ∧
      ("o" ++ "/" ++ pathStem "a.png" ++ "_hist.csv",
        Artifact.histCsv ("bin", "count") rows) ∈ arts ∧
      rows.length = 256 ∧
      rows.map Prod.fst = List.range 256 ∧
      (rows.map Prod.snd).sum = (targetDims 2 2 1024).2 * (targetDims 2 2 1024).1) :=
  ⟨⟨rfl, rfl, by
      rw [targetDims_id 2 2 1024 (by decide) (by decide)]
      decide, by
      rw [targetDims_id 2 2 1024 (by decide) (by decide)]
      decide⟩,
    hist_csv_shape okImgEnv "a.png" "o" 1024 ⟨2, 2⟩ rfl rfl
      (fun hs => absurd hs (by
        rw [imgScale_eq_one 2 2 1024 (by decide) (by decide)]
        exact lt_irrefl 1))
      (by
        rw [targetDims_id 2 2 1024 (by decide) (by decide)]
        decide)
      (by
        rw [targetDims_id 2 2 1024 (by decide) (by decide)]
        decide)⟩

lemma rfftfreq_length (n sr : Nat) : (rfftfreq n sr).length = n / 2 + 1 := by
  unfold rfftfreq
  rw [List.length_map, List.length_range]

lemma rfftfreq_chain (n sr : Nat) (hn : n ≠ 0) (hsr : sr ≠ 0) :
    List.Chain' (fun a b : ℚ => a < b) (rfftfreq n sr) := by
  unfold rfftfreq
  apply List.Pairwise.chain'
  rw [List.pairwise_map]
  refine List.Pairwise.imp ?_ (List.pairwise_lt_range _)
  intro a b hab
  have hsr' : (0 : ℚ) < (sr : ℚ) := by exact_mod_cast Nat.pos_of_ne_zero hsr
  have hn' : (0 : ℚ) < (n : ℚ) := by exact_mod_cast Nat.pos_of_ne_zero hn
  have hab' : (a : ℚ) < (b : ℚ) := by exact_mod_cast hab
  exact (div_lt_div_iff_of_pos_right hn').mpr ((mul_lt_mul_right hsr').mpr hab')

lemma rfftfreq_head (n sr : Nat) : (rfftfreq n sr).head? = some 0 := by
  unfold rfftfreq
  rw [List.range_succ_eq_map]
  simp

lemma fftRows_shape (env : SigEnv) (sr : Nat) (mono : List ℚ)
    (hfft : (env.fftMag mono).length = mono.length / 2 + 1)
    (hn : mono.length ≠ 0) (hsr : sr ≠ 0) :
    (fftRows env sr mono).length = mono.length / 2 + 1 ∧
    List.Chain' (fun a b : ℚ => a < b) ((fftRows env sr mono).map Prod.fst) ∧
    ((fftRows env sr mono).map Prod.fst).head? = some 0 := by
  have hmapfst : (fftRows env sr mono).map Prod.fst = rfftfreq mono.length sr :=
    List.map_fst_zip _ _ (by rw [rfftfreq_length, hfft])
  refine ⟨?_, ?_, ?_⟩
  · rw [fftRows, List.length_zip, rfftfreq_length, hfft]
    exact min_self _
  · rw [hmapfst]
    exact rfftfreq_chain _ _ hn hsr
  · rw [hmapfst]
    exact rfftfreq_head _ _

lemma sigCore_eq_ok (env : SigEnv) (p out : String) (dsR sr : Nat) (mono : List ℚ)
    (hn : mono.length ≠ 0) (hsr : sr ≠ 0) :
    sigCore env p out dsR sr mono =
      .ok (⟨p, .OK, (out ++ "/" ++ pathStem p ++ "_fft.csv") ++ ", " ++
            (out ++ "/" ++ pathStem p ++ "_waveform.csv")⟩,
        [(out ++ "/" ++ pathStem p ++ "_fft.csv",
          .fftCsv ("frequency", "magnitude") (fftRows env sr mono)),
         (out ++ "/" ++ pathStem p ++ "_waveform.csv",
          .waveCsv ("sample_index", "value") (everyNth mono (max 1 (sr / dsR))).enum)]) := by
  unfold sigCore
  rw [if_neg hn, if_neg hsr]

/-- C5: for every waveform read successfully (WAV after channel averaging,
CSV after column selection) the FFT artifact has exactly `n/2 + 1` data rows
after its header and a frequency column strictly increasing from 0. -/
theorem fft_csv_shape (env : SigEnv) (pw pc out : String) (ds srW : Nat)
    (arrW arrC : NdArray) (monoW monoC : List ℚ)
    (hmk : env.mkdirOk out = true)
    (hread : env.readWav pw = some (srW, arrW)) (hmw : wavMono? arrW = some monoW)
    (hnw : monoW.length ≠ 0) (hsrW : srW ≠ 0)
    (hfw : (env.fftMag monoW).length = monoW.length / 2 + 1)
    (hload : env.loadCsv pc = some arrC) (hmc : csvMono? arrC = some monoC)
    (hnc : monoC.length ≠ 0)
    (hfc : (env.fftMag monoC).length = monoC.length / 2 + 1) :
    (∃ jr arts, process_wav env pw out ds = .ok (jr, arts) ∧
      (out ++ "/" ++ pathStem pw ++ "_fft.csv",
        Artifact.fftCsv ("frequency", "magnitude") (fftRows env srW monoW)) ∈ arts ∧
      (fftRows env srW monoW).length = monoW.length / 2 + 1 ∧
      List.Chain' (fun a b : ℚ => a < b) ((fftRows env srW monoW).map Prod.fst) ∧
      ((fftRows env srW monoW).map Prod.fst).head? = some 0) ∧
    (∃ jr arts, process_csv env pc out ds = .ok (jr, arts) ∧
      (out ++ "/" ++ pathStem pc ++ "_fft.csv",
        Artifact.fftCsv ("frequency", "magnitude") (fftRows env 44100 monoC)) ∈ arts ∧
      (fftRows env 44100 monoC).length = monoC.length / 2 + 1 ∧
      List.Chain' (fun a b : ℚ => a < b) ((fftRows env 44100 monoC).map Prod.fst) ∧
      ((fftRows env 44100 monoC).map Prod.fst).head? = some 0) := by
  obtain ⟨hl1, hch1, hh1⟩ := fftRows_shape env srW monoW hfw hnw hsrW
  obtain ⟨hl2, hch2, hh2⟩ := fftRows_shape env 44100 monoC hfc hnc (by decide)
  constructor
  · have heq : process_wav env pw out ds = sigCore env pw out ds srW monoW := by
      unfold process_wav
      rw [hmk]
      simp only [if_true]
      rw [hread]
      dsimp only
      rw [hmw]
    rw [heq, sigCore_eq_ok env pw out ds srW monoW hnw hsrW]
    exact ⟨_, _, rfl, List.mem_cons_self _ _, hl1, hch1, hh1⟩
  · have heq : process_csv env pc out ds = sigCore env pc out ds 44100 monoC := by
      unfold process_csv
      rw [hmk]
      simp only [if_true]
      rw [hload]
      dsimp only
      rw [hmc]
    rw [heq, sigCore_eq_ok env pc out ds 44100 monoC hnc (by decide)]
    exact ⟨_, _, rfl, List.mem_cons_self _ _, hl2, hch2, hh2⟩

/-- C5 witness: a 3-sample mono WAV at rate 8 and a 2-row CSV waveform. -/
theorem fft_csv_shape_witness :
    (okSigEnv.mkdirOk "o" = true ∧
      okSigEnv.readWav "b.wav" = some (8, .one [1, 2, 3]) ∧
      wavMono? (.one [1, 2, 3]) = some [1, 2, 3] ∧
      ([1, 2, 3] : List ℚ).length ≠ 0 ∧ (8 : Nat) ≠ 0 ∧
      (okSigEnv.fftMag [1, 2, 3]).length = ([1, 2, 3] : List ℚ).length / 2 + 1 ∧
      okSigEnv.loadCsv "c.csv" = some (.one [4, 5]) ∧
      csvMono? (.one [4, 5]) = some [4, 5] ∧
      ([4, 5] : List ℚ).length ≠ 0 ∧
      (okSigEnv.fftMag [4, 5]).length = ([4, 5] : List ℚ).length / 2 + 1) ∧
    ((∃ jr arts, process_wav okSigEnv "b.wav" "o" 1000 = .ok (jr, arts) ∧
      ("o" ++ "/" ++ pathStem "b.wav" ++ "_fft.csv",
        Artifact.fftCsv ("frequency", "magnitude") (fftRows okSigEnv 8 [1, 2, 3])) ∈ arts ∧
      (fftRows okSigEnv 8 [1, 2, 3]).length = ([1, 2, 3] : List ℚ).length / 2 + 1 ∧
      List.Chain' (fun a b : ℚ => a < b) ((fftRows okSigEnv 8 [1, 2, 3]).map Prod.fst) ∧
      ((fftRows okSigEnv 8 [1, 2, 3]).map Prod.fst).head? = some 0) ∧
    (∃ jr arts, process_csv okSigEnv "c.csv" "o" 1000 = .ok (jr, arts) ∧
      ("o" ++ "/" ++ pathStem "c.csv" ++ "_fft.csv",
        Artifact.fftCsv ("frequency", "magnitude") (fftRows okSigEnv 44100 [4, 5])) ∈ arts ∧
      (fftRows okSigEnv 44100 [4, 5]).length = ([4, 5] : List ℚ).length / 2 + 1 ∧
      List.Chain' (fun a b : ℚ => a < b) ((fftRows okSigEnv 44100 [4, 5]).map Prod.fst) ∧
      ((fftRows okSigEnv 44100 [4, 5]).map Prod.fst).head? = some 0)) :=
  ⟨⟨rfl, rfl, rfl, by decide, by decide, rfl, rfl, rfl, by decide, rfl⟩,
    fft_csv_shape okSigEnv "b.wav" "c.csv" "o" 1000 8 (.one [1, 2, 3]) (.one [4, 5])
      [1, 2, 3] [4, 5] rfl rfl rfl (by decide) (by decide) rfl rfl rfl (by decide) rfl⟩

/-- C9: a multi-channel WAV is processed exactly as the mono signal of its
per-sample channel means, and a two-dimensional CSV exactly as the waveform
of its first column — the reduction happens before the FFT and the
downsampling, which see only the reduced signal. -/
theorem channel_reduction (env : SigEnv) (pw pc out : String) (ds sr : Nat)
    (xss yss : List (List ℚ))
    (hw : env.readWav pw = some (sr, .two xss))
    (hc : env.loadCsv pc = some (.two yss)) :
    process_wav env pw out ds =
      process_wav { env with readWav := fun _ => some (sr, .one (rowMeans xss)) } pw out ds ∧
    process_csv env pc out ds =
      process_csv { env with loadCsv := fun _ => some (.one (firstCol yss)) } pc out ds := by
  constructor
  · unfold process_wav
    rw [hw]
    rfl
  · unfold process_csv
    rw [hc]
    rfl

/-- C9 witness: a concrete 2-channel WAV and 2-column CSV. -/
theorem channel_reduction_witness :
    (stereoSigEnv.readWav "a.wav" = some (4, .two [[1, 3], [5, 7]]) ∧
      stereoSigEnv.loadCsv "b.csv" = some (.two [[2, 4], [6, 8]])) ∧
    (process_wav stereoSigEnv "a.wav" "o" 1000 =
      process_wav { stereoSigEnv with
        readWav := fun _ => some (4, .one (rowMeans [[1, 3], [5, 7]])) } "a.wav" "o" 1000 ∧
    process_csv stereoSigEnv "b.csv" "o" 1000 =
      process_csv { stereoSigEnv with
        loadCsv := fun _ => some (.one (firstCol [[2, 4], [6, 8]])) } "b.csv" "o" 1000) :=
  ⟨⟨rfl, rfl⟩,
    channel_reduction stereoSigEnv "a.wav" "b.csv" "o" 1000 4
      [[1, 3], [5, 7]] [[2, 4], [6, 8]] rfl rfl⟩

example : pathStem "photos/a.PNG" = "a" := by decide
example : pathSuffix "s/t.WAV" = ".WAV" := by decide
example : pathStem "a/.bashrc" = ".bashrc" := by decide
example : pathSuffix "a/.bashrc" = "" := by decide
example : matchesExt "photos/a.PNG" ".png" = false := by decide
example : matchesExt "photos/a.png" ".png" = true := by decide
